import Mathlib

/-!
Verification of the MockMate streaming event protocol and incremental
playback engine.

The development embeds, over `List Char`:
  * the client-side SSE frame parser and stream iterator of
    `frontend/src/lib/api.ts` (`collectEvents`, the `startInterviewStream`
    and `sendInterviewAnswerStream` iterators),
  * the server-side stream generators listed in
    `STREAMING_IMPLEMENTATION_GUIDE.md` (`generate_stream` for
    `/interview/start` and `/interview/respond-stream`),
  * the typewriter playback component `StreamingMessage`,
  * the fallback controller formed by `InterviewConsole.handleSubmit`
    together with the page-level `handleAnswerSubmit` /
    `handleAnswerSubmitStream`.

`JSON.parse` is a host builtin, so it enters the model as an explicit
function parameter `parse : Str → Except Str (ParsedEvt J)` returning
either the thrown error message or the parsed object, of which only the
fields the client code reads (`type` when it is a string, and `data`)
are retained.  JSON payload values are an opaque type parameter `J`.
-/

/-- JavaScript strings are modelled as lists of characters. -/
abbrev Str := List Char

/-- The ASCII whitespace characters removed by `String.prototype.trim`. -/
def isWsChar (c : Char) : Bool :=
  c = ' ' || c = '\t' || c = '\n' || c = '\r' || c = '\x0b' || c = '\x0c'

/-- `s.trim()`: strip whitespace from both ends. -/
def jsTrim (s : Str) : Str :=
  ((s.dropWhile isWsChar).reverse.dropWhile isWsChar).reverse

/-- `buffer.replace(/\r\n/g, "\n")` — the per-chunk normalization applied by
the iterators in `api.ts` (line 237 and line 396): each CR-LF pair becomes
LF; a lone CR is left in place. -/
def normCRLF : Str → Str
  | '\r' :: '\n' :: rest => '\n' :: normCRLF rest
  | c :: rest => c :: normCRLF rest
  | [] => []

/-- The parsed JSON object as seen by `collectEvents`: the `type` property
when it is a string (a missing or non-string `type` is indistinguishable
to the dispatch and is collapsed to `none`), and the `data` property
(`none` = absent). -/
structure ParsedEvt (J : Type) where
  typeField : Option Str
  dataField : Option J
deriving DecidableEq

/-- The `data` payload of a yielded `StreamEvent`, covering the four object
shapes built by the iterators in `api.ts`. -/
inductive EvData (J : Type) where
  /-- a recognized event: `parsed.data` passed through -/
  | payload (d : Option J)
  /-- `{ message: "Unknown stream event type", raw: parsed }` -/
  | unknownType (message : Str) (raw : ParsedEvt J)
  /-- `{ message: "Failed to parse stream event", raw: dataStr, error: err.message }` -/
  | parseFailure (message : Str) (raw : Str) (error : Str)
  /-- `{ message: error.message }` synthesized in the iterator's catch -/
  | transport (message : Str)
deriving DecidableEq

/-- One event yielded by the stream iterators of `api.ts`. -/
structure StreamEvent (J : Type) where
  type : Str
  data : EvData J
deriving DecidableEq

/-- The `allowedTypes` set of `startInterviewStream` (api.ts lines 165-170). -/
def allowedTypesStart : List Str :=
  ["session_started".data, "question_chunk".data, "question_complete".data,
   "error".data]

/-- The `allowedTypes` set of `sendInterviewAnswerStream` (api.ts lines 323-329). -/
def allowedTypesRespond : List Str :=
  ["session_started".data, "question_chunk".data, "question_complete".data,
   "interview_complete".data, "error".data]

/-- The body of the terminator frame, `[DONE]`. -/
def doneLit : Str := "[DONE]".data

/-- The guard chain of `collectEvents` on one raw frame (api.ts lines
182-197): trim the frame, skip it when empty or not starting with
`data:`, drop the 5-character prefix, trim, and skip when empty.
Returns the `dataStr` handed to the `[DONE]` test and `JSON.parse`. -/
def frameDataOf (raw : Str) : Option Str :=
  let rawEvent := jsTrim raw
  if rawEvent = [] then none
  else if rawEvent.take 5 ≠ "data:".data then none
  else
    let dataStr := jsTrim (rawEvent.drop 5)
    if dataStr = [] then none else some dataStr

/-- What `collectEvents` does with one complete frame. -/
inductive FrameAction (J : Type) where
  | skip
  | done
  | event (e : StreamEvent J)
deriving DecidableEq

/-- The per-frame behaviour of the loop body of `collectEvents`
(api.ts lines 182-225): skip blank/non-`data:` frames, recognize the
`[DONE]` sentinel, otherwise parse the JSON body; parse failure yields a
synthetic error event; a missing or unrecognized `type` yields an
`Unknown stream event type` error event; a recognized `type` yields the
typed event carrying `parsed.data`. -/
def frameAction (parse : Str → Except Str (ParsedEvt J)) (allowed : List Str)
    (raw : Str) : FrameAction J :=
  match frameDataOf raw with
  | none => .skip
  | some dataStr =>
    if dataStr = doneLit then .done
    else
      match parse dataStr with
      | .error err =>
        .event ⟨"error".data, .parseFailure "Failed to parse stream event".data dataStr err⟩
      | .ok parsed =>
        match parsed.typeField with
        | some t =>
          if t ∈ allowed then .event ⟨t, .payload parsed.dataField⟩
          else .event ⟨"error".data, .unknownType "Unknown stream event type".data parsed⟩
        | none => .event ⟨"error".data, .unknownType "Unknown stream event type".data parsed⟩

/-- Split a buffer at every `\n\n` delimiter (the repeated
`buffer.indexOf("\n\n")` / `buffer.slice` steps of `collectEvents`):
returns the complete frames in order and the leftover bytes after the
last delimiter. -/
def splitFrames : Str → List Str × Str
  | [] => ([], [])
  | [c] => ([], [c])
  | a :: b :: rest =>
    if a = '\n' ∧ b = '\n' then
      let r := splitFrames rest
      ([] :: r.1, r.2)
    else
      match splitFrames (b :: rest) with
      | ([], lf) => ([], a :: lf)
      | (f :: fs, lf) => ((a :: f) :: fs, lf)

/-- Fold `frameAction` over the complete frames, in order, stopping at the
first `[DONE]` exactly as the `while` loop of `collectEvents` breaks
there (frames after the sentinel are never examined). -/
def processFrames (parse : Str → Except Str (ParsedEvt J)) (allowed : List Str) :
    List Str → List (StreamEvent J) × Bool
  | [] => ([], false)
  | f :: fs =>
    match frameAction parse allowed f with
    | .skip => processFrames parse allowed fs
    | .done => ([], true)
    | .event e =>
      let r := processFrames parse allowed fs
      (e :: r.1, r.2)

/-- Result of one `collectEvents()` call: the events pushed, the `done`
flag, and the buffer that remains for the next call.  (When `done` is
true the iterator returns at once, so the leftover buffer is dead.) -/
structure CollectResult (J : Type) where
  events : List (StreamEvent J)
  done : Bool
  buffer : Str
deriving DecidableEq

/-- `collectEvents` of api.ts (lines 172-229), as a function of the buffer. -/
def collectEvents (parse : Str → Except Str (ParsedEvt J)) (allowed : List Str)
    (buf : Str) : CollectResult J :=
  let fr := splitFrames buf
  let pe := processFrames parse allowed fr.1
  ⟨pe.1, pe.2, fr.2⟩

/-- How the byte-source ends after its chunks: a normal end-of-stream
read (`done: true`), or a read that throws with the given message. -/
inductive Terminal where
  | eof
  | errRead (msg : Str)
deriving DecidableEq

/-- The async-generator loop of the stream iterators (api.ts lines
231-273): pull a chunk, append its CR-LF-normalized text to the buffer,
run `collectEvents`, yield its events, return when the terminator was
seen; at end-of-stream run one final `collectEvents` pass; when the pull
throws, yield a single synthesized error event carrying the message. -/
def runConsume (parse : Str → Except Str (ParsedEvt J)) (allowed : List Str) :
    List Str → Terminal → Str → List (StreamEvent J)
  | [], .eof, buf =>
    let r := collectEvents parse allowed buf
    if r.done then r.events
    else r.events ++ (collectEvents parse allowed r.buffer).events
  | [], .errRead m, _ => [⟨"error".data, .transport m⟩]
  | c :: cs, t, buf =>
    let r := collectEvents parse allowed (buf ++ normCRLF c)
    if r.done then r.events
    else r.events ++ runConsume parse allowed cs t r.buffer

/-- Run a stream iterator from its initial empty buffer over the given
chunk sequence and terminal outcome; the result is the ordered list of
yielded `StreamEvent`s. -/
def runStream (parse : Str → Except Str (ParsedEvt J)) (allowed : List Str)
    (cs : List Str) (t : Terminal) : List (StreamEvent J) :=
  runConsume parse allowed cs t []

/-- Whether the iterator observes the `[DONE]` sentinel while consuming
the given chunks (starting from the given buffer). -/
def hitsDoneAux (parse : Str → Except Str (ParsedEvt J)) (allowed : List Str) :
    List Str → Str → Bool
  | [], _ => false
  | c :: cs, buf =>
    let r := collectEvents parse allowed (buf ++ normCRLF c)
    r.done || hitsDoneAux parse allowed cs r.buffer

/-- Whether the iterator observes the `[DONE]` sentinel on this chunk list. -/
def hitsDone (parse : Str → Except Str (ParsedEvt J)) (allowed : List Str)
    (cs : List Str) : Bool :=
  hitsDoneAux parse allowed cs []

/-- Decode a fully assembled buffer in one pass: the canonical event list
of a wire text. -/
def decodeAll (parse : Str → Except Str (ParsedEvt J)) (allowed : List Str)
    (s : Str) : List (StreamEvent J) :=
  (processFrames parse allowed (splitFrames s).1).1

/-- A buffer contains a `\n\n` delimiter. -/
def hasDelim : Str → Bool
  | [] => false
  | [_] => false
  | a :: b :: rest => (a = '\n' && b = '\n') || hasDelim (b :: rest)

/-!
Server side: the `generate_stream` generators listed in
`STREAMING_IMPLEMENTATION_GUIDE.md` (lines 85-125 for `/interview/start`,
lines 145-180 for `/interview/respond-stream`).  `json.dumps` is a host
builtin, so `_serialize_event` takes a serialization function `dumps` as
a parameter; `json.dumps` applied to a dict always yields a string that
starts with `{`, which is the only fact about it the theorems use.
-/

/-- The payload dicts passed to `_serialize_event` by the two generators. -/
inductive SsePayload where
  | sessionStarted (sessionId : Str)
  | questionChunk (content : Str) (finished : Bool)
  | questionComplete (sessionId : Str) (completed : Bool) (totalContent : Str)
  | errorMsg (message : Str)
deriving DecidableEq

/-- `_serialize_event(event_type, data)`:
`f"data: {json.dumps({'type': event_type, 'data': data})}\n\n"`. -/
def serializeEvent (dumps : Str → SsePayload → Str) (t : Str) (d : SsePayload) : Str :=
  "data: ".data ++ dumps t d ++ "\n\n".data

/-- The terminator frame `data: [DONE]\n\n` emitted after the try/except. -/
def doneFrame : Str := "data: [DONE]\n\n".data

/-- Outcome of `_interview_manager.start(...)`: the new session id, or the
message of the exception it raised. -/
def StartOutcome := Except Str Str

/-- The `generate_stream` of `/interview/start` (guide lines 85-125) as a
function of the collaborator outcomes: `startResult` is the session
creation outcome, `chunks` the fragments yielded by
`generate_first_question_stream` before it either ends normally
(`chunkEnd = none`) or raises (`chunkEnd = some msg`).  Empty fragments
are skipped (`if chunk:`); `question_complete` carries the stripped
accumulated text; the terminator frame follows every path. -/
def generateStreamStart (dumps : Str → SsePayload → Str)
    (startResult : Except Str Str) (chunks : List Str) (chunkEnd : Option Str) :
    List Str :=
  match startResult with
  | .error msg => [serializeEvent dumps "error".data (.errorMsg msg), doneFrame]
  | .ok sessionId =>
    let body := chunks.filter (fun c => c ≠ [])
    serializeEvent dumps "session_started".data (.sessionStarted sessionId) ::
      body.map (fun c => serializeEvent dumps "question_chunk".data (.questionChunk c false)) ++
      (match chunkEnd with
       | some msg => [serializeEvent dumps "error".data (.errorMsg msg)]
       | none =>
         [serializeEvent dumps "question_complete".data
           (.questionComplete sessionId false (jsTrim body.flatten))]) ++
      [doneFrame]

/-- Outcome of the session lookup in `/interview/respond-stream`. -/
inductive LookupOutcome where
  | found
  | notFound
  | dbError
deriving DecidableEq

/-- The `generate_stream` of `/interview/respond-stream` (guide lines
145-180): a failed or missing session lookup emits one error event and
skips the main block; otherwise the follow-up question streams like the
start path; the terminator frame follows every path. -/
def generateStreamRespond (dumps : Str → SsePayload → Str)
    (lookup : LookupOutcome) (sessionId : Str) (chunks : List Str)
    (chunkEnd : Option Str) : List Str :=
  match lookup with
  | .notFound => [serializeEvent dumps "error".data (.errorMsg "Session not found".data), doneFrame]
  | .dbError =>
    [serializeEvent dumps "error".data (.errorMsg "Database error occurred".data), doneFrame]
  | .found =>
    chunks.map (fun c => serializeEvent dumps "question_chunk".data (.questionChunk c false)) ++
      (match chunkEnd with
       | some msg => [serializeEvent dumps "error".data (.errorMsg msg)]
       | none =>
         [serializeEvent dumps "question_complete".data
           (.questionComplete sessionId false (jsTrim chunks.flatten))]) ++
      [doneFrame]

/-!
Playback: the `StreamingMessage` typewriter component.  Its mutable cell
is `{ contentRef, charIndexRef, displayed }`; the effect on
`[content, isStreaming]` and the `step` closure of the interval are the
two transitions that touch it.
-/

/-- The state held by `StreamingMessage` across renders. -/
structure PlaybackState where
  contentRef : Str
  charIndex : Nat
  displayed : Str
  isStreaming : Bool
deriving DecidableEq

/-- The effect run whenever `content` or `isStreaming` changes (component
lines 29-42 together with the reveal-completion effect lines 78-109,
whose non-streaming branch repeats the same clamp): store the new
content; while streaming, reset the cursor to 0 when the new content is
strictly shorter than it; when not streaming, jump the cursor and the
displayed text to the full content. -/
def applyContentUpdate (content : Str) (streaming : Bool) (s : PlaybackState) :
    PlaybackState :=
  if streaming then
    if content.length < s.charIndex then
      ⟨content, 0, [], true⟩
    else
      ⟨content, s.charIndex, s.displayed, true⟩
  else
    ⟨content, content.length, content, false⟩

/-- The `step` closure driven by the interval (component lines 57-65):
advance the cursor by one and reveal that prefix, unless the cursor has
caught up with the content. -/
def tickStep (s : PlaybackState) : PlaybackState :=
  if s.charIndex ≥ s.contentRef.length then s
  else ⟨s.contentRef, s.charIndex + 1, s.contentRef.take (s.charIndex + 1), s.isStreaming⟩

/-- One externally visible transition of `StreamingMessage`: a re-render
with new props, or one interval tick (the interval only runs while
streaming). -/
inductive PbAction where
  | update (content : Str) (streaming : Bool)
  | tick
deriving DecidableEq

/-- Transition function of the playback state machine. -/
def pbStep (s : PlaybackState) : PbAction → PlaybackState
  | .update c streaming => applyContentUpdate c streaming s
  | .tick => if s.isStreaming then tickStep s else s

/-- Mount: `useState("")`, `useRef(content)`, `useRef(0)`, then the mount
run of the effects on the initial props. -/
def pbInit (content : Str) (streaming : Bool) : PlaybackState :=
  applyContentUpdate content streaming ⟨content, 0, [], streaming⟩

/-- Run the component over a sequence of renders and ticks. -/
def pbRun (content : Str) (streaming : Bool) (acts : List PbAction) : PlaybackState :=
  acts.foldl pbStep (pbInit content streaming)

/-!
Fallback controller: `InterviewConsole.handleSubmit` (InterviewConsole.tsx
lines 71-114) wired to the page-level `handleAnswerSubmitStream` and the
synchronous `handleAnswerSubmit` (part_008 lines 92-196).  The model
replays the callback control flow as a pure function of the turn's
outcomes: what the streaming attempt did, and what the synchronous
endpoint would answer if called.  The list of answers sent to the
synchronous endpoint (`sendInterviewAnswer`) is returned alongside the
final state so the retry policy is observable.
-/

/-- An `InterviewPrompt` of part_009. -/
structure InterviewPromptM where
  id : Str
  text : Str
  topic : Str
  qtype : Str
deriving DecidableEq

/-- A `ConversationEntry` appended to the page history. -/
structure ConversationEntryM where
  role : Str
  content : Str
  topic : Option Str
  etype : Option Str
deriving DecidableEq

/-- An `InterviewResponse` from the synchronous endpoint or the completed
stream (`feedback` kept opaque as a string blob). -/
structure InterviewResponseM where
  completed : Bool
  prompt : Option InterviewPromptM
  feedback : Option Str
deriving DecidableEq

/-- The page-level state of `HomePage` (part_008) that the turn touches. -/
structure PageState where
  sessionId : Option Str
  currentPrompt : Option InterviewPromptM
  history : List ConversationEntryM
  feedback : Option Str
  isProcessing : Bool
  errorMessage : Option Str
deriving DecidableEq

/-- The console-local state of `InterviewConsole` the turn touches. -/
structure ConsoleState where
  isStreaming : Bool
  streamingMessage : Str
deriving DecidableEq

/-- How the streaming attempt of one turn plays out, as observed through
the `sendInterviewAnswerStream` callbacks: completion after some chunks,
an `onError` callback after some chunks, or a synchronous throw out of
the setup. -/
inductive StreamScenario where
  | success (chunks : List Str) (resp : InterviewResponseM)
  | streamFail (chunks : List Str) (emsg : Str)
  | setupThrow (emsg : Str)
deriving DecidableEq

/-- Whether the scenario ends in an error surfaced to `onError` / `catch`. -/
def StreamScenario.isError : StreamScenario → Bool
  | .success _ _ => false
  | .streamFail _ _ => true
  | .setupThrow _ => true

/-- The two history entries recorded for a finished turn (part_008
lines 103-112 and 160-169). -/
def turnEntries (cp : InterviewPromptM) (answer : Str) : List ConversationEntryM :=
  [⟨"interviewer".data, cp.text, some cp.topic, some cp.qtype⟩,
   ⟨"candidate".data, answer, none, none⟩]

/-- `handleAnswerSubmit` (part_008 lines 92-126): the synchronous turn.
Returns the new page state and the answers sent to `sendInterviewAnswer`;
`syncResult` is what that call returns or throws.  A missing session or
prompt is a silent no-op; a thrown error lands in `errorMessage` and is
not retried. -/
def handleAnswerSubmit (syncResult : Except Str InterviewResponseM)
    (answer : Str) (st : PageState) : PageState × List Str :=
  match st.sessionId, st.currentPrompt with
  | some _, some cp =>
    let st1 := { st with isProcessing := true, errorMessage := none }
    (match syncResult with
     | .ok resp =>
       let st2 := { st1 with history := st1.history ++ turnEntries cp answer }
       let st3 :=
         if resp.completed then
           { st2 with feedback := resp.feedback, sessionId := none, currentPrompt := none }
         else
           match resp.prompt with
           | some p => { st2 with currentPrompt := some p }
           | none => st2
       ({ st3 with isProcessing := false }, [answer])
     | .error m => ({ st1 with errorMessage := some m, isProcessing := false }, [answer]))
  | _, _ => (st, [])

/-- The `onComplete` handler of `handleAnswerSubmitStream` (part_008
lines 159-181): record the turn, apply the terminal response, clear the
processing flag. -/
def applyStreamComplete (cp : InterviewPromptM) (answer : Str)
    (resp : InterviewResponseM) (st : PageState) : PageState :=
  let st1 := { st with history := st.history ++ turnEntries cp answer }
  let st2 :=
    if resp.completed then
      { st1 with feedback := resp.feedback, currentPrompt := none, sessionId := none }
    else
      match resp.prompt with
      | some p => { st1 with currentPrompt := some p }
      | none => st1
  { st2 with isProcessing := false }

/-- One submission through `InterviewConsole.handleSubmit` on the
streaming path, composed with the page handlers of part_008.  The result
is the console state, the page state, and the list of answers sent to the
synchronous endpoint.  Control flow transcribed from the sources:

* console: ignore a blank answer; `setIsStreaming(true)`,
  `setStreamingMessage("")` before the attempt (lines 71-80);
* page `handleAnswerSubmitStream`: reject when no session/prompt is
  active, else mark processing and clear the error banner (lines 128-148);
* `onChunk` appends to the console's `streamingMessage` (lines 84-86);
* `onComplete`: page records the turn and applies the response; console
  stops streaming and clears the partial text (lines 87-91, 159-181);
* `onError` (stream failure) and the page-level catch (setup throw):
  page clears processing and stores the stream error message
  (lines 182-187, 190-195); console stops streaming, clears the partial
  text and awaits `onSubmit(value)` — the synchronous fallback with the
  same trimmed answer (lines 92-98, 102-108). -/
def consoleSubmit (scenario : StreamScenario)
    (syncResult : Except Str InterviewResponseM) (answerRaw : Str)
    (st : PageState) : ConsoleState × PageState × List Str :=
  let value := jsTrim answerRaw
  if value = [] then (⟨false, []⟩, st, [])
  else
    match st.sessionId with
    | none =>
      let r := handleAnswerSubmit syncResult value st
      (⟨false, []⟩, r.1, r.2)
    | some _ =>
      match st.currentPrompt with
      | none =>
        let st1 := { st with isProcessing := false }
        let r := handleAnswerSubmit syncResult value st1
        (⟨false, []⟩, r.1, r.2)
      | some cp =>
        let st1 := { st with isProcessing := true, errorMessage := none }
        match scenario with
        | .success _chunks resp =>
          (⟨false, []⟩, applyStreamComplete cp value resp st1, [])
        | .streamFail _chunks emsg =>
          let st2 := { st1 with isProcessing := false, errorMessage := some emsg }
          let r := handleAnswerSubmit syncResult value st2
          (⟨false, []⟩, r.1, r.2)
        | .setupThrow emsg =>
          let st2 := { st1 with isProcessing := false, errorMessage := some emsg }
          let r := handleAnswerSubmit syncResult value st2
          (⟨false, []⟩, r.1, r.2)

/-! Structural lemmas about the frame splitter. -/

/-- If no delimiter was found, the whole buffer is leftover. -/
theorem splitFrames_fst_nil (s : Str) (h : (splitFrames s).1 = []) :
    (splitFrames s).2 = s := by
  induction s using splitFrames.induct with
  | case1 => rfl
  | case2 c => rfl
  | case3 a b rest hab ih =>
    simp only [splitFrames, if_pos hab] at h
    exact absurd h (List.cons_ne_nil _ _)
  | case4 a b rest hab lf heq ih =>
    have h1 : lf = b :: rest := by
      have h2 := ih (by rw [heq])
      rw [heq] at h2
      exact h2
    simp only [splitFrames, if_neg hab, heq]
    rw [h1]
  | case5 a b rest hab f fs lf heq ih =>
    simp only [splitFrames, if_neg hab, heq] at h
    exact absurd h (List.cons_ne_nil _ _)

/-- A buffer with no `\n\n` splits into no frames. -/
theorem splitFrames_of_not_hasDelim (s : Str) (h : hasDelim s = false) :
    splitFrames s = ([], s) := by
  induction s using splitFrames.induct with
  | case1 => rfl
  | case2 c => rfl
  | case3 a b rest hab ih =>
    exfalso
    simp [hasDelim, hab] at h
  | case4 a b rest hab lf heq ih =>
    have h2 : hasDelim (b :: rest) = false := by
      simp only [hasDelim, Bool.or_eq_false_iff] at h
      exact h.2
    have h3 := ih h2
    rw [heq] at h3
    have h4 : lf = b :: rest := ((Prod.mk.injEq _ _ _ _).mp h3).2
    simp only [splitFrames, if_neg hab, heq, h4]
  | case5 a b rest hab f fs lf heq ih =>
    exfalso
    have h2 : hasDelim (b :: rest) = false := by
      simp only [hasDelim, Bool.or_eq_false_iff] at h
      exact h.2
    have h3 := ih h2
    rw [heq] at h3
    exact absurd ((Prod.mk.injEq _ _ _ _).mp h3).1 (by simp)

/-- The leftover of a split never contains a delimiter. -/
theorem hasDelim_splitFrames_snd (s : Str) : hasDelim (splitFrames s).2 = false := by
  induction s using splitFrames.induct with
  | case1 => rfl
  | case2 c => rfl
  | case3 a b rest hab ih =>
    simp only [splitFrames, if_pos hab]
    exact ih
  | case4 a b rest hab lf heq ih =>
    have h1 : lf = b :: rest := by
      have h2 := splitFrames_fst_nil (b :: rest) (by rw [heq])
      rw [heq] at h2
      exact h2
    rw [heq] at ih
    simp only [splitFrames, if_neg hab, heq]
    rw [h1]
    simp only [hasDelim, Bool.or_eq_false_iff]
    refine ⟨?_, ?_⟩
    · rcases not_and_or.mp hab with h | h <;> simp [h]
    · rw [h1] at ih
      exact ih
  | case5 a b rest hab f fs lf heq ih =>
    rw [heq] at ih
    simp only [splitFrames, if_neg hab, heq]
    exact ih

/-- Appending bytes extends a split compositionally: the frames of
`a ++ b` are the frames of `a` followed by the frames of the leftover of
`a` glued to `b`. -/
theorem splitFrames_append (a b : Str) :
    splitFrames (a ++ b) =
      ((splitFrames a).1 ++ (splitFrames ((splitFrames a).2 ++ b)).1,
       (splitFrames ((splitFrames a).2 ++ b)).2) := by
  induction a using splitFrames.induct with
  | case1 => simp [splitFrames]
  | case2 c => simp [splitFrames]
  | case3 x y rest hab ih =>
    obtain ⟨hx, hy⟩ := hab
    subst hx; subst hy
    have hc : ('\n' : Char) = '\n' ∧ ('\n' : Char) = '\n' := ⟨rfl, rfl⟩
    simp only [List.cons_append]
    simp only [splitFrames, if_pos hc]
    rw [ih]
    simp
  | case4 x y rest hab lf heq ih =>
    have h1 : lf = y :: rest := by
      have h2 := splitFrames_fst_nil (y :: rest) (by rw [heq])
      rw [heq] at h2
      exact h2
    have hsa : splitFrames (x :: y :: rest) = ([], x :: lf) := by
      simp only [splitFrames, if_neg hab, heq]
    rw [hsa]
    rw [h1]
    simp
  | case5 x y rest hab f fs lf heq ih =>
    have hsa : splitFrames (x :: y :: rest) = ((x :: f) :: fs, lf) := by
      simp only [splitFrames, if_neg hab, heq]
    rw [hsa]
    rw [heq] at ih
    simp only [List.nil_append] at ih
    have ih2 : splitFrames (y :: (rest ++ b)) =
        (f :: (fs ++ (splitFrames (lf ++ b)).1), (splitFrames (lf ++ b)).2) := by
      simpa using ih
    simp only [List.cons_append]
    simp only [splitFrames, if_neg hab, ih2]
/-- Processing a concatenation of frame lists: the first part runs, and
unless it hit the terminator the second part continues after it. -/
theorem processFrames_append (parse : Str → Except Str (ParsedEvt J))
    (allowed : List Str) (fs1 fs2 : List Str) :
    processFrames parse allowed (fs1 ++ fs2) =
      (if (processFrames parse allowed fs1).2 then
        ((processFrames parse allowed fs1).1, true)
      else
        ((processFrames parse allowed fs1).1 ++ (processFrames parse allowed fs2).1,
         (processFrames parse allowed fs2).2)) := by
  induction fs1 with
  | nil => simp [processFrames]
  | cons f fs ih =>
    simp only [List.cons_append, processFrames]
    cases frameAction parse allowed f with
    | skip =>
      dsimp only
      simpa [List.append_eq] using ih
    | done =>
      dsimp only
      simp
    | event e =>
      dsimp only
      simp only [List.append_eq]
      rw [ih]
      by_cases h : (processFrames parse allowed fs).2 <;> simp [h]

/-- `collectEvents` on a delimiter-free buffer is a no-op. -/
theorem collectEvents_no_delim (parse : Str → Except Str (ParsedEvt J))
    (allowed : List Str) (buf : Str) (h : hasDelim buf = false) :
    collectEvents parse allowed buf = ⟨[], false, buf⟩ := by
  simp [collectEvents, splitFrames_of_not_hasDelim buf h, processFrames]

/-- The buffer left behind by `collectEvents` is delimiter-free. -/
theorem collectEvents_buffer_no_delim (parse : Str → Except Str (ParsedEvt J))
    (allowed : List Str) (buf : Str) :
    hasDelim (collectEvents parse allowed buf).buffer = false := by
  simp [collectEvents, hasDelim_splitFrames_snd]

/-- `collectEvents` after appending bytes to a buffer whose previous pass
did not hit the terminator: the old events come first, then the events of
the leftover glued to the new bytes. -/
theorem collectEvents_append (parse : Str → Except Str (ParsedEvt J))
    (allowed : List Str) (buf s : Str)
    (h : (collectEvents parse allowed buf).done = false) :
    collectEvents parse allowed (buf ++ s) =
      ⟨(collectEvents parse allowed buf).events ++
         (collectEvents parse allowed ((collectEvents parse allowed buf).buffer ++ s)).events,
       (collectEvents parse allowed ((collectEvents parse allowed buf).buffer ++ s)).done,
       (collectEvents parse allowed ((collectEvents parse allowed buf).buffer ++ s)).buffer⟩ := by
  simp only [collectEvents] at h ⊢
  rw [splitFrames_append buf s]
  rw [processFrames_append]
  simp only [h, if_false]
  simp

/-- `collectEvents` after appending bytes to a buffer whose previous pass
hit the terminator: same events, still terminated. -/
theorem collectEvents_append_done (parse : Str → Except Str (ParsedEvt J))
    (allowed : List Str) (buf s : Str)
    (h : (collectEvents parse allowed buf).done = true) :
    (collectEvents parse allowed (buf ++ s)).events =
        (collectEvents parse allowed buf).events ∧
      (collectEvents parse allowed (buf ++ s)).done = true := by
  simp only [collectEvents] at h ⊢
  rw [splitFrames_append buf s]
  rw [processFrames_append]
  simp [h]
/-- CR-LF normalization is the identity on carriage-return-free text. -/
theorem normCRLF_of_no_cr (s : Str) (h : '\r' ∉ s) : normCRLF s = s := by
  induction s using normCRLF.induct with
  | case1 rest ih => simp at h
  | case2 c rest hne ih =>
    simp only [List.mem_cons, not_or] at h
    simp only [normCRLF]
    rw [ih h.2]
  | case3 => rfl

/-- `decodeAll` is the event list of one `collectEvents` pass. -/
theorem decodeAll_eq_collect (parse : Str → Except Str (ParsedEvt J))
    (allowed : List Str) (s : Str) :
    decodeAll parse allowed s = (collectEvents parse allowed s).events := rfl

/-- On a fully delivered source, the iterator loop yields exactly the
events of a single decode pass over the concatenation of the buffer with
all chunks — for carriage-return-free chunks, where the per-chunk CR-LF
normalization is the identity. -/
theorem runConsume_eof_eq_decodeAll (parse : Str → Except Str (ParsedEvt J))
    (allowed : List Str) (cs : List Str) (buf : Str)
    (h : ∀ c ∈ cs, '\r' ∉ c) :
    runConsume parse allowed cs .eof buf =
      decodeAll parse allowed (buf ++ cs.flatten) := by
  induction cs generalizing buf with
  | nil =>
    simp only [runConsume, List.flatten_nil, List.append_nil]
    by_cases hd : (collectEvents parse allowed buf).done
    · simp [hd, decodeAll_eq_collect]
    · simp only [hd, if_false]
      rw [collectEvents_no_delim parse allowed _
        (collectEvents_buffer_no_delim parse allowed buf)]
      simp [decodeAll_eq_collect]
  | cons c cs ih =>
    have hc : normCRLF c = c := normCRLF_of_no_cr c (h c (by simp))
    simp only [runConsume, hc]
    by_cases hd : (collectEvents parse allowed (buf ++ c)).done
    · simp only [hd, if_true]
      have h2 := collectEvents_append_done parse allowed (buf ++ c) cs.flatten hd
      rw [decodeAll_eq_collect]
      rw [List.flatten_cons, ← List.append_assoc]
      exact h2.1.symm
    · simp only [hd, if_false]
      rw [ih _ (fun x hx => h x (by simp [hx]))]
      have h2 := collectEvents_append parse allowed (buf ++ c) cs.flatten
        (by simpa using hd)
      rw [decodeAll_eq_collect, decodeAll_eq_collect]
      rw [List.flatten_cons, ← List.append_assoc]
      rw [h2]
      simp

/-- Once the terminator has been observed, any further chunks and any
terminal outcome of the byte-source are irrelevant: the iterator has
already returned. -/
theorem runConsume_extend_of_hitsDone (parse : Str → Except Str (ParsedEvt J))
    (allowed : List Str) (cs extra : List Str) (t t' : Terminal) (buf : Str)
    (h : hitsDoneAux parse allowed cs buf = true) :
    runConsume parse allowed (cs ++ extra) t' buf =
      runConsume parse allowed cs t buf := by
  induction cs generalizing buf with
  | nil => simp [hitsDoneAux] at h
  | cons c cs ih =>
    simp only [hitsDoneAux, Bool.or_eq_true] at h
    simp only [List.cons_append, runConsume]
    by_cases hd : (collectEvents parse allowed (buf ++ normCRLF c)).done
    · simp [hd]
    · rcases h with h | h
      · exact absurd h (by simpa using hd)
      · simp only [hd, if_false, List.append_eq]
        rw [ih _ h]

/-- A read failure with no terminator seen so far appends exactly one
synthesized transport-error event to what the successful run would have
yielded, and nothing after it. -/
theorem runConsume_errRead (parse : Str → Except Str (ParsedEvt J))
    (allowed : List Str) (cs : List Str) (m : Str) (buf : Str)
    (hb : hasDelim buf = false)
    (h : hitsDoneAux parse allowed cs buf = false) :
    runConsume parse allowed cs (.errRead m) buf =
      runConsume parse allowed cs .eof buf ++ [⟨"error".data, .transport m⟩] := by
  induction cs generalizing buf with
  | nil =>
    simp only [runConsume]
    simp [collectEvents_no_delim parse allowed buf hb]
  | cons c cs ih =>
    simp only [hitsDoneAux, Bool.or_eq_false_iff] at h
    simp only [runConsume, h.1, if_false]
    rw [ih _ (collectEvents_buffer_no_delim parse allowed (buf ++ normCRLF c)) h.2]
    simp
/-- A `JSON.parse` stub that throws on every input (as the real one does
on the non-JSON bodies used below), with a fixed error message. -/
def parseFailW : Str → Except Str (ParsedEvt Unit) := fun _ => .error "SyntaxError".data

/-- A `JSON.parse` stub that parses every body to an object whose `type`
field is the body itself (and no `data` field). -/
def parseOkEcho : Str → Except Str (ParsedEvt Unit) := fun s => .ok ⟨some s, none⟩

/-- C2, counterexample: the same wire byte stream `data: a\r\nb\n\n`, split
once inside the CR-LF pair and once delivered whole, decodes to different
event lists: the per-chunk `replace(/\r\n/g, "\n")` misses a CR-LF pair
that straddles a chunk boundary, so the surviving CR reaches the parse
failure event's `raw` field (`a\r\nb` versus `a\nb`).  The parse stub
agrees with `JSON.parse`, which throws on both bodies. -/
theorem c2_chunking_counterexample :
    ("data: a\r".data ++ "\nb\n\n".data : Str) = "data: a\r\nb\n\n".data ∧
    runStream parseFailW [] ["data: a\r".data, "\nb\n\n".data] Terminal.eof ≠
      runStream parseFailW [] ["data: a\r\nb\n\n".data] Terminal.eof := by
  constructor
  · rfl
  · decide

/-- C2 (amended): for every wire byte stream free of carriage returns,
any two chunkings with the same concatenation decode to the identical
ordered list of `StreamEvent`s, namely the single-pass decode of the
whole stream in frame order. -/
theorem c2_chunking_invariance {J : Type} (parse : Str → Except Str (ParsedEvt J))
    (allowed : List Str) (cs1 cs2 : List Str)
    (hr : '\r' ∉ cs1.flatten) (hj : cs1.flatten = cs2.flatten) :
    runStream parse allowed cs1 Terminal.eof = runStream parse allowed cs2 Terminal.eof ∧
    runStream parse allowed cs1 Terminal.eof = decodeAll parse allowed cs1.flatten := by
  have hmem : ∀ cs : List Str, '\r' ∉ cs.flatten → ∀ c ∈ cs, '\r' ∉ c := by
    intro cs h c hc hrc
    exact h (List.mem_flatten.mpr ⟨c, hc, hrc⟩)
  have h1 := runConsume_eof_eq_decodeAll parse allowed cs1 [] (hmem cs1 hr)
  have h2 := runConsume_eof_eq_decodeAll parse allowed cs2 [] (hmem cs2 (hj ▸ hr))
  simp only [List.nil_append] at h1 h2
  refine ⟨?_, h1⟩
  rw [runStream, runStream, h1, h2, hj]

/-- C2 witness: a concrete carriage-return-free stream and two chunkings. -/
theorem c2_chunking_invariance_witness :
    ('\r' ∉ (["ab".data, "c\n\n".data] : List Str).flatten ∧
      (["ab".data, "c\n\n".data] : List Str).flatten =
        (["abc".data, "\n\n".data] : List Str).flatten) ∧
    (runStream parseFailW [] ["ab".data, "c\n\n".data] Terminal.eof =
        runStream parseFailW [] ["abc".data, "\n\n".data] Terminal.eof ∧
      runStream parseFailW [] ["ab".data, "c\n\n".data] Terminal.eof =
        decodeAll parseFailW [] (["ab".data, "c\n\n".data] : List Str).flatten) :=
  ⟨⟨by decide, by decide⟩,
    c2_chunking_invariance parseFailW [] ["ab".data, "c\n\n".data]
      ["abc".data, "\n\n".data] (by decide) (by decide)⟩

/-- C3: a recognized terminator frame stops the scan — every event of the
complete frames preceding it is yielded and nothing after it is examined
(first conjunct, at the decode level, covering frames that arrived in the
same chunk as the terminator); and once the iterator has observed the
terminator, any bytes still unread on the source and any terminal outcome
are irrelevant to the yielded sequence (second conjunct). -/
theorem c3_terminator_stops_scan {J : Type} (parse : Str → Except Str (ParsedEvt J))
    (allowed : List Str) (fs1 fs2 : List Str) (f0 : Str)
    (cs extra : List Str) (t t' : Terminal)
    (h1 : ∀ f ∈ fs1, frameAction parse allowed f ≠ FrameAction.done)
    (h2 : frameAction parse allowed f0 = FrameAction.done)
    (h3 : hitsDone parse allowed cs = true) :
    processFrames parse allowed (fs1 ++ f0 :: fs2) =
        ((processFrames parse allowed fs1).1, true) ∧
    runStream parse allowed (cs ++ extra) t' = runStream parse allowed cs t := by
  constructor
  · induction fs1 with
    | nil => simp [processFrames, h2]
    | cons f fs ih =>
      have hf : frameAction parse allowed f ≠ FrameAction.done := h1 f (by simp)
      have ihh := ih (fun g hg => h1 g (by simp [hg]))
      simp only [List.cons_append, processFrames]
      cases ha : frameAction parse allowed f with
      | skip => exact ihh
      | done => exact absurd ha hf
      | event e =>
        dsimp only
        simp only [List.append_eq]
        rw [ihh]
  · exact runConsume_extend_of_hitsDone parse allowed cs extra t t' [] h3

/-- C3 witness: events before the terminator survive; chunks after it are dead. -/
theorem c3_terminator_stops_scan_witness :
    ((∀ f ∈ (["data: question_chunk".data] : List Str),
        frameAction parseOkEcho allowedTypesStart f ≠ FrameAction.done) ∧
      frameAction parseOkEcho allowedTypesStart "data: [DONE]".data = FrameAction.done ∧
      hitsDone parseOkEcho allowedTypesStart ["data: [DONE]\n\n".data] = true) ∧
    (processFrames parseOkEcho allowedTypesStart
        (["data: question_chunk".data] ++ "data: [DONE]".data :: ["data: question_chunk".data]) =
        ((processFrames parseOkEcho allowedTypesStart ["data: question_chunk".data]).1, true) ∧
      runStream parseOkEcho allowedTypesStart
          (["data: [DONE]\n\n".data] ++ ["data: question_chunk\n\n".data]) Terminal.eof =
        runStream parseOkEcho allowedTypesStart ["data: [DONE]\n\n".data] (Terminal.errRead "x".data)) :=
  ⟨⟨by decide, by decide, by decide⟩,
    c3_terminator_stops_scan parseOkEcho allowedTypesStart
      ["data: question_chunk".data] ["data: question_chunk".data] "data: [DONE]".data
      ["data: [DONE]\n\n".data] ["data: question_chunk\n\n".data]
      (Terminal.errRead "x".data) Terminal.eof
      (by decide) (by decide) (by decide)⟩

/-- C4: a complete frame whose body is not valid JSON yields exactly one
synthetic error event carrying the parse-failure message and the raw
body, and decoding continues with the subsequent frames unchanged. -/
theorem c4_malformed_frame_recovered {J : Type}
    (parse : Str → Except Str (ParsedEvt J)) (allowed : List Str)
    (raw d e : Str) (fs : List Str)
    (h1 : frameDataOf raw = some d) (h2 : d ≠ doneLit)
    (h3 : parse d = .error e) :
    frameAction parse allowed raw =
        FrameAction.event ⟨"error".data,
          EvData.parseFailure "Failed to parse stream event".data d e⟩ ∧
    processFrames parse allowed (raw :: fs) =
      (⟨"error".data, EvData.parseFailure "Failed to parse stream event".data d e⟩ ::
          (processFrames parse allowed fs).1,
        (processFrames parse allowed fs).2) := by
  have hfa : frameAction parse allowed raw =
      FrameAction.event ⟨"error".data,
        EvData.parseFailure "Failed to parse stream event".data d e⟩ := by
    simp [frameAction, h1, h2, h3]
  exact ⟨hfa, by simp [processFrames, hfa]⟩

/-- C4 witness: a malformed frame followed by a well-formed one. -/
theorem c4_malformed_frame_recovered_witness :
    (frameDataOf "data: nonsense".data = some "nonsense".data ∧
      "nonsense".data ≠ doneLit ∧
      parseFailW "nonsense".data = Except.error "SyntaxError".data) ∧
    (frameAction parseFailW allowedTypesStart "data: nonsense".data =
        FrameAction.event ⟨"error".data,
          EvData.parseFailure "Failed to parse stream event".data "nonsense".data
            "SyntaxError".data⟩ ∧
      processFrames parseFailW allowedTypesStart
          ("data: nonsense".data :: ["data: also bad".data]) =
        (⟨"error".data, EvData.parseFailure "Failed to parse stream event".data
            "nonsense".data "SyntaxError".data⟩ ::
            (processFrames parseFailW allowedTypesStart ["data: also bad".data]).1,
          (processFrames parseFailW allowedTypesStart ["data: also bad".data]).2)) :=
  ⟨⟨by decide, by decide, rfl⟩,
    c4_malformed_frame_recovered parseFailW allowedTypesStart
      "data: nonsense".data "nonsense".data "SyntaxError".data
      ["data: also bad".data] (by decide) (by decide) rfl⟩

/-- C5: a well-formed frame whose parsed `type` is missing or outside the
recognized set yields exactly one error event with message
`Unknown stream event type` carrying the raw parsed payload — never
dropped, never yielded under the unrecognized type — and decoding
continues with the subsequent frames. -/
theorem c5_unknown_type_downgraded {J : Type}
    (parse : Str → Except Str (ParsedEvt J)) (allowed : List Str)
    (raw d : Str) (p : ParsedEvt J) (fs : List Str)
    (h1 : frameDataOf raw = some d) (h2 : d ≠ doneLit)
    (h3 : parse d = .ok p)
    (h4 : ∀ s, p.typeField = some s → s ∉ allowed) :
    frameAction parse allowed raw =
        FrameAction.event ⟨"error".data,
          EvData.unknownType "Unknown stream event type".data p⟩ ∧
    processFrames parse allowed (raw :: fs) =
      (⟨"error".data, EvData.unknownType "Unknown stream event type".data p⟩ ::
          (processFrames parse allowed fs).1,
        (processFrames parse allowed fs).2) := by
  have hfa : frameAction parse allowed raw =
      FrameAction.event ⟨"error".data,
        EvData.unknownType "Unknown stream event type".data p⟩ := by
    cases hp : p.typeField with
    | none => simp [frameAction, h1, h2, h3, hp]
    | some s =>
      have hs : s ∉ allowed := h4 s hp
      simp [frameAction, h1, h2, h3, hp, hs]
  exact ⟨hfa, by simp [processFrames, hfa]⟩

/-- C5 witness: a frame of unrecognized type `interview_complete` against
the start-interview allowed set. -/
theorem c5_unknown_type_downgraded_witness :
    (frameDataOf "data: interview_complete".data = some "interview_complete".data ∧
      "interview_complete".data ≠ doneLit ∧
      parseOkEcho "interview_complete".data =
        Except.ok ⟨some "interview_complete".data, none⟩ ∧
      (∀ s, (⟨some "interview_complete".data, none⟩ : ParsedEvt Unit).typeField = some s →
        s ∉ allowedTypesStart)) ∧
    (frameAction parseOkEcho allowedTypesStart "data: interview_complete".data =
        FrameAction.event ⟨"error".data,
          EvData.unknownType "Unknown stream event type".data
            ⟨some "interview_complete".data, none⟩⟩ ∧
      processFrames parseOkEcho allowedTypesStart
          ("data: interview_complete".data :: ["data: question_chunk".data]) =
        (⟨"error".data, EvData.unknownType "Unknown stream event type".data
            ⟨some "interview_complete".data, none⟩⟩ ::
            (processFrames parseOkEcho allowedTypesStart ["data: question_chunk".data]).1,
          (processFrames parseOkEcho allowedTypesStart ["data: question_chunk".data]).2)) :=
  ⟨⟨by decide, by decide, rfl, by decide⟩,
    c5_unknown_type_downgraded parseOkEcho allowedTypesStart
      "data: interview_complete".data "interview_complete".data
      ⟨some "interview_complete".data, none⟩ ["data: question_chunk".data]
      (by decide) (by decide) rfl (by decide)⟩

/-- C6: when the pull from the byte-source throws before any terminator
frame was seen, the iterator yields exactly the events of the successful
prefix followed by one final synthesized error event carrying the
failure's message, and nothing after it. -/
theorem c6_transport_failure_surfaced {J : Type}
    (parse : Str → Except Str (ParsedEvt J)) (allowed : List Str)
    (cs : List Str) (m : Str)
    (h : hitsDone parse allowed cs = false) :
    runStream parse allowed cs (Terminal.errRead m) =
      runStream parse allowed cs Terminal.eof ++
        [⟨"error".data, EvData.transport m⟩] :=
  runConsume_errRead parse allowed cs m [] rfl h

/-- C6 witness: a read failure after one complete event frame. -/
theorem c6_transport_failure_surfaced_witness :
    (hitsDone parseOkEcho allowedTypesStart ["data: question_chunk\n\n".data] = false) ∧
    runStream parseOkEcho allowedTypesStart ["data: question_chunk\n\n".data]
        (Terminal.errRead "network down".data) =
      runStream parseOkEcho allowedTypesStart ["data: question_chunk\n\n".data]
          Terminal.eof ++
        [⟨"error".data, EvData.transport "network down".data⟩] :=
  ⟨by decide,
    c6_transport_failure_surfaced parseOkEcho allowedTypesStart
      ["data: question_chunk\n\n".data] "network down".data (by decide)⟩
/-- The complete frames the consumer assembles from the wire bytes over a
run: those cut from each buffer-plus-normalized-chunk pass, and those of
the final flush at end of input.  This depends only on the chunk
sequence, not on the parse function or the allowed set (frame cutting
and the leftover buffer are parse-independent). -/
def streamFrames : List Str → Str → List Str
  | [], buf => (splitFrames buf).1
  | c :: cs, buf =>
    (splitFrames (buf ++ normCRLF c)).1 ++
      streamFrames cs (splitFrames (buf ++ normCRLF c)).2

/-- Two allowed sets that give the same per-frame action on every member
of a frame list give the same decode of that list. -/
theorem processFrames_congr_mem {J : Type} (parse : Str → Except Str (ParsedEvt J))
    (a1 a2 : List Str) (fs : List Str)
    (h : ∀ f ∈ fs, frameAction parse a1 f = frameAction parse a2 f) :
    processFrames parse a1 fs = processFrames parse a2 fs := by
  induction fs with
  | nil => rfl
  | cons f fs ih =>
    simp only [processFrames, h f (by simp), ih (fun g hg => h g (by simp [hg]))]

/-- Two allowed sets that give the same per-frame action on every frame
of a buffer give the same `collectEvents` result on it. -/
theorem collectEvents_congr_mem {J : Type} (parse : Str → Except Str (ParsedEvt J))
    (a1 a2 : List Str) (buf : Str)
    (h : ∀ f ∈ (splitFrames buf).1, frameAction parse a1 f = frameAction parse a2 f) :
    collectEvents parse a1 buf = collectEvents parse a2 buf := by
  simp only [collectEvents, processFrames_congr_mem parse a1 a2 _ h]

/-- Two allowed sets that give the same per-frame action on every frame
of a stream give the same iterator run on it, for every terminal. -/
theorem runConsume_congr_mem {J : Type} (parse : Str → Except Str (ParsedEvt J))
    (a1 a2 : List Str) (cs : List Str) (t : Terminal) (buf : Str)
    (h : ∀ f ∈ streamFrames cs buf, frameAction parse a1 f = frameAction parse a2 f) :
    runConsume parse a1 cs t buf = runConsume parse a2 cs t buf := by
  induction cs generalizing buf with
  | nil =>
    cases t with
    | errRead m => rfl
    | eof =>
      have hc := collectEvents_congr_mem parse a1 a2 buf
        (fun f hf => h f (by simpa [streamFrames] using hf))
      simp only [runConsume, hc]
      rw [collectEvents_no_delim parse a1 _ (collectEvents_buffer_no_delim parse a2 buf)]
      rw [collectEvents_no_delim parse a2 _ (collectEvents_buffer_no_delim parse a2 buf)]
  | cons c cs ih =>
    have hc := collectEvents_congr_mem parse a1 a2 (buf ++ normCRLF c)
      (fun f hf => h f (by simp only [streamFrames, List.mem_append]; exact Or.inl hf))
    simp only [runConsume, hc]
    by_cases hd : (collectEvents parse a2 (buf ++ normCRLF c)).done
    · simp [hd]
    · simp only [hd, if_false]
      rw [ih _ (fun f hf => h f (by simp only [streamFrames, List.mem_append]; exact Or.inr hf))]

/-- The respond-stream allowed set extends the start-stream one exactly by
`interview_complete`: on any frame that does not parse to that type the
two parsers act identically. -/
theorem frameAction_start_eq_respond {J : Type}
    (parse : Str → Except Str (ParsedEvt J)) (raw : Str)
    (h : ∀ d p, frameDataOf raw = some d → parse d = .ok p →
      p.typeField ≠ some "interview_complete".data) :
    frameAction parse allowedTypesStart raw =
      frameAction parse allowedTypesRespond raw := by
  unfold frameAction
  cases hd : frameDataOf raw with
  | none => rfl
  | some d =>
    by_cases hdl : d = doneLit
    · simp [hdl]
    · simp only [hdl, if_false]
      cases hp : parse d with
      | error e => rfl
      | ok p =>
        dsimp only
        cases ht : p.typeField with
        | none => simp [ht]
        | some s =>
          have hne : s ≠ "interview_complete".data := by
            intro hcontra
            exact h d p hd hp (by rw [ht, hcontra])
          have hmem : s ∈ allowedTypesRespond ↔ s ∈ allowedTypesStart := by
            simp only [allowedTypesStart, allowedTypesRespond, List.mem_cons,
              List.not_mem_nil, or_false]
            constructor
            · rintro (h1 | h1 | h1 | h1 | h1)
              · tauto
              · tauto
              · tauto
              · exact absurd h1 hne
              · tauto
            · tauto
          dsimp only
          by_cases hm : s ∈ allowedTypesStart
          · simp [hm, hmem.mpr hm]
          · have hm2 : s ∉ allowedTypesRespond := fun hc => hm (hmem.mp hc)
            simp [hm, hm2]

/-- C10: the start-interview and respond stream parsers differ only in
their recognized-type sets.  A well-formed frame parsing to type
`interview_complete` is downgraded to an `Unknown stream event type`
error by `startInterviewStream` but yielded as an `interview_complete`
event by `sendInterviewAnswerStream` (first conjunct); and on every
input stream none of whose frames parses to that type, the two parsers
yield identical event lists, for every terminal outcome (second
conjunct). -/
theorem c10_parsers_differ_only_on_interview_complete {J : Type}
    (parse : Str → Except Str (ParsedEvt J)) (raw d : Str) (p : ParsedEvt J)
    (cs : List Str) (t : Terminal)
    (h1 : frameDataOf raw = some d) (h2 : d ≠ doneLit)
    (h3 : parse d = .ok p) :
    (p.typeField = some "interview_complete".data →
      frameAction parse allowedTypesStart raw =
          FrameAction.event ⟨"error".data,
            EvData.unknownType "Unknown stream event type".data p⟩ ∧
        frameAction parse allowedTypesRespond raw =
          FrameAction.event ⟨"interview_complete".data, EvData.payload p.dataField⟩) ∧
    ((∀ f ∈ streamFrames cs [], ∀ d' p', frameDataOf f = some d' →
        parse d' = .ok p' → p'.typeField ≠ some "interview_complete".data) →
      runStream parse allowedTypesStart cs t =
        runStream parse allowedTypesRespond cs t) := by
  constructor
  · intro ht
    constructor
    · have hnotin : "interview_complete".data ∉ allowedTypesStart := by decide
      simp [frameAction, h1, h2, h3, ht, hnotin]
    · have hin : "interview_complete".data ∈ allowedTypesRespond := by decide
      simp [frameAction, h1, h2, h3, ht, hin]
  · intro hstream
    exact runConsume_congr_mem parse allowedTypesStart allowedTypesRespond cs t []
      (fun f hf => frameAction_start_eq_respond parse f (hstream f hf))

/-- C10 witness: a concrete `interview_complete` frame for the first
conjunct, and a concrete stream — one `question_chunk` frame, none of
whose frames parses to `interview_complete` — on which the proved
equality of the two parsers' runs is instantiated with its stream-level
hypothesis discharged. -/
theorem c10_parsers_differ_only_on_interview_complete_witness :
    (frameDataOf "data: interview_complete".data = some "interview_complete".data ∧
      "interview_complete".data ≠ doneLit ∧
      parseOkEcho "interview_complete".data =
        Except.ok ⟨some "interview_complete".data, none⟩ ∧
      (∀ f ∈ streamFrames ["data: question_chunk\n\n".data] [], ∀ d' p',
        frameDataOf f = some d' → parseOkEcho d' = .ok p' →
        p'.typeField ≠ some "interview_complete".data)) ∧
    (frameAction parseOkEcho allowedTypesStart "data: interview_complete".data =
        FrameAction.event ⟨"error".data,
          EvData.unknownType "Unknown stream event type".data
            ⟨some "interview_complete".data, none⟩⟩ ∧
      frameAction parseOkEcho allowedTypesRespond "data: interview_complete".data =
        FrameAction.event ⟨"interview_complete".data, EvData.payload none⟩ ∧
      runStream parseOkEcho allowedTypesStart ["data: question_chunk\n\n".data]
          Terminal.eof =
        runStream parseOkEcho allowedTypesRespond ["data: question_chunk\n\n".data]
          Terminal.eof) := by
  have hstream : ∀ f ∈ streamFrames ["data: question_chunk\n\n".data] ([] : Str),
      ∀ (d' : Str) (p' : ParsedEvt Unit), frameDataOf f = some d' →
      parseOkEcho d' = .ok p' → p'.typeField ≠ some "interview_complete".data := by
    intro f hf d' p' hfd hp
    have hlist : streamFrames ["data: question_chunk\n\n".data] ([] : Str) =
        ["data: question_chunk".data] := by decide
    rw [hlist] at hf
    simp only [List.mem_singleton] at hf
    subst hf
    have hd2 : frameDataOf "data: question_chunk".data = some "question_chunk".data := by
      decide
    rw [hd2] at hfd
    injection hfd with hfd
    subst hfd
    have hp2 : parseOkEcho "question_chunk".data =
        Except.ok ⟨some "question_chunk".data, none⟩ := rfl
    rw [hp2] at hp
    injection hp with hp
    subst hp
    decide
  have happ := c10_parsers_differ_only_on_interview_complete parseOkEcho
    "data: interview_complete".data "interview_complete".data
    ⟨some "interview_complete".data, none⟩ ["data: question_chunk\n\n".data]
    Terminal.eof (by decide) (by decide) rfl
  exact ⟨⟨by decide, by decide, rfl, hstream⟩,
    (happ.1 rfl).1, (happ.1 rfl).2, happ.2 hstream⟩
/-- An SSE encoding of a list of frame bodies with LF line endings:
`data: <body>\n\n` per frame. -/
def encodeLF (bodies : List Str) : Str :=
  (bodies.map (fun b => "data: ".data ++ b ++ "\n\n".data)).flatten

/-- The same encoding with CR-LF line endings: `data: <body>\r\n\r\n`. -/
def encodeCRLF (bodies : List Str) : Str :=
  (bodies.map (fun b => "data: ".data ++ b ++ "\r\n\r\n".data)).flatten

/-- `normCRLF` leaves a carriage-return-free head untouched. -/
theorem normCRLF_append_of_no_cr (a b : Str) (h : '\r' ∉ a) :
    normCRLF (a ++ b) = a ++ normCRLF b := by
  induction a with
  | nil => rfl
  | cons c a ih =>
    simp only [List.mem_cons, not_or] at h
    have hc : c ≠ '\r' := fun hcc => h.1 hcc.symm
    rw [List.cons_append]
    rw [normCRLF.eq_def]
    split
    · next rest heq =>
      injection heq with h1 h2
      exact absurd h1 hc
    · next c2 rest heq =>
      injection heq with h1 h2
      subst h1
      subst h2
      rw [ih h.2]
      rfl
    · next heq =>
      exact absurd heq (by simp)

/-- `normCRLF` rewrites a leading CR-LF CR-LF to LF LF. -/
theorem normCRLF_crlf_crlf (t : Str) :
    normCRLF ('\r' :: '\n' :: '\r' :: '\n' :: t) = '\n' :: '\n' :: normCRLF t := rfl

/-- The LF encoding of carriage-return-free bodies contains no CR. -/
theorem no_cr_encodeLF (bodies : List Str) (h : ∀ b ∈ bodies, '\r' ∉ b) :
    '\r' ∉ encodeLF bodies := by
  induction bodies with
  | nil => simp [encodeLF]
  | cons b bs ih =>
    simp only [encodeLF, List.map_cons, List.flatten_cons, List.mem_append, not_or]
    refine ⟨⟨⟨?_, ?_⟩, ?_⟩, ?_⟩
    · decide
    · exact h b (by simp)
    · decide
    · exact ih (fun x hx => h x (by simp [hx]))

/-- Normalizing the CR-LF encoding of carriage-return-free bodies gives
exactly the LF encoding. -/
theorem normCRLF_encodeCRLF (bodies : List Str) (h : ∀ b ∈ bodies, '\r' ∉ b) :
    normCRLF (encodeCRLF bodies) = encodeLF bodies := by
  induction bodies with
  | nil => rfl
  | cons b bs ih =>
    have hnb : '\r' ∉ ("data: ".data ++ b) := by
      intro hm
      rcases List.mem_append.mp hm with hm | hm
      · revert hm
        decide
      · exact h b (by simp) hm
    have e1 : ("data: ".data ++ b ++ "\r\n\r\n".data) ++ encodeCRLF bs =
        ("data: ".data ++ b) ++ ('\r' :: '\n' :: '\r' :: '\n' :: encodeCRLF bs) := by
      simp [List.append_assoc]
    simp only [encodeCRLF, List.map_cons, List.flatten_cons]
    rw [show ((bs.map (fun b => "data: ".data ++ b ++ "\r\n\r\n".data)).flatten : Str) =
      encodeCRLF bs from rfl] at *
    rw [e1]
    rw [normCRLF_append_of_no_cr _ _ hnb]
    rw [normCRLF_crlf_crlf]
    rw [ih (fun x hx => h x (by simp [hx]))]
    simp [encodeLF, List.append_assoc]
/-- C9, counterexample: `api.ts` normalizes only CR-LF pairs, not every
carriage return.  On the received bytes `data: a\rb\n\n` the lone CR
survives the normalization, reaches the delimiter search and the body
handed to `JSON.parse`, and so surfaces inside the yielded event's `raw`
field — whereas a consumer that removed every CR (as `part_009` does via
`replace(/\r/g, "")`) would have decoded the body `ab`. -/
theorem c9_lone_cr_counterexample :
    runStream parseFailW [] ["data: a\rb\n\n".data] Terminal.eof =
        [⟨"error".data, EvData.parseFailure "Failed to parse stream event".data
          "a\rb".data "SyntaxError".data⟩] ∧
      '\r' ∈ ("a\rb".data : Str) ∧
      runStream parseFailW [] ["data: a\rb\n\n".data] Terminal.eof ≠
        runStream parseFailW [] ["data: ab\n\n".data] Terminal.eof :=
  ⟨by decide, by decide, by decide⟩

/-- C9 (amended): the consumer rewrites CR-LF pairs to LF before the
delimiter search (a lone CR is preserved), and this suffices for
delimiter equivalence: for every list of carriage-return-free frame
bodies, the CR-LF-delimited encoding delivered in one chunk decodes to
the same ordered event list as the LF-delimited encoding. -/
theorem c9_crlf_lf_equivalent {J : Type} (parse : Str → Except Str (ParsedEvt J))
    (allowed : List Str) (bodies : List Str) (h : ∀ b ∈ bodies, '\r' ∉ b) :
    runStream parse allowed [encodeCRLF bodies] Terminal.eof =
      runStream parse allowed [encodeLF bodies] Terminal.eof := by
  have h1 := normCRLF_encodeCRLF bodies h
  have h2 := normCRLF_of_no_cr (encodeLF bodies) (no_cr_encodeLF bodies h)
  simp only [runStream, runConsume, List.nil_append, h1, h2]

/-- C9 witness: one CR-free body, both encodings, equal decodes. -/
theorem c9_crlf_lf_equivalent_witness :
    (∀ b ∈ (["x".data] : List Str), '\r' ∉ b) ∧
    runStream parseFailW allowedTypesStart [encodeCRLF ["x".data]] Terminal.eof =
      runStream parseFailW allowedTypesStart [encodeLF ["x".data]] Terminal.eof :=
  ⟨by decide, c9_crlf_lf_equivalent parseFailW allowedTypesStart ["x".data] (by decide)⟩
/-- `json.dumps` of a dict starts with a brace, so no serialized event
frame can coincide with the terminator frame (which continues with `[`
after the shared `data: ` prefix). -/
theorem serializeEvent_ne_doneFrame (dumps : Str → SsePayload → Str)
    (hdumps : ∀ t d, ∃ r, dumps t d = '\x7b' :: r)
    (t : Str) (d : SsePayload) : serializeEvent dumps t d ≠ doneFrame := by
  intro h
  obtain ⟨r, hr⟩ := hdumps t d
  rw [serializeEvent, hr] at h
  have hpre : ("data: ".data : Str) = ['d', 'a', 't', 'a', ':', ' '] := rfl
  have hdone : doneFrame =
      ['d', 'a', 't', 'a', ':', ' ', '[', 'D', 'O', 'N', 'E', ']', '\n', '\n'] := rfl
  rw [hpre, hdone] at h
  simp only [List.cons_append, List.nil_append, List.cons.injEq] at h
  exact absurd h.2.2.2.2.2.2.1 (by decide)

/-- A list whose members all differ from `d`, extended by one `d`,
contains `d` exactly once and ends with it. -/
theorem count_getLast_concat {α : Type} [BEq α] [LawfulBEq α] (l : List α) (d : α)
    (h : ∀ x ∈ l, x ≠ d) :
    (l ++ [d]).count d = 1 ∧ (l ++ [d]).getLast? = some d := by
  constructor
  · rw [List.count_append]
    have h0 : l.count d = 0 := by
      rw [List.count_eq_zero]
      intro hm
      exact h d hm rfl
    simp [h0]
  · exact List.getLast?_concat l

/-- C1: on every execution path of the two server-side stream generators —
session creation succeeding or raising, the question generator ending
normally or raising, the session lookup failing — the emitted frame
sequence contains the terminator frame `data: [DONE]\n\n` exactly once,
and it is the last frame emitted. -/
theorem c1_terminator_exactly_once_and_last (dumps : Str → SsePayload → Str)
    (hdumps : ∀ t d, ∃ r, dumps t d = '\x7b' :: r)
    (startResult : Except Str Str) (chunks : List Str) (chunkEnd : Option Str)
    (lookup : LookupOutcome) (sessionId : Str) (chunks2 : List Str)
    (chunkEnd2 : Option Str) :
    ((generateStreamStart dumps startResult chunks chunkEnd).count doneFrame = 1 ∧
      (generateStreamStart dumps startResult chunks chunkEnd).getLast? = some doneFrame) ∧
    ((generateStreamRespond dumps lookup sessionId chunks2 chunkEnd2).count doneFrame = 1 ∧
      (generateStreamRespond dumps lookup sessionId chunks2 chunkEnd2).getLast? =
        some doneFrame) := by
  have hne := serializeEvent_ne_doneFrame dumps hdumps
  constructor
  · cases startResult with
    | error msg =>
      exact count_getLast_concat [serializeEvent dumps "error".data (.errorMsg msg)]
        doneFrame (by intro x hx; simp at hx; subst hx; exact hne _ _)
    | ok sid =>
      cases chunkEnd with
      | some msg =>
        have hshape : generateStreamStart dumps (.ok sid) chunks (some msg) =
            (serializeEvent dumps "session_started".data (.sessionStarted sid) ::
              ((chunks.filter (fun c => c ≠ [])).map
                (fun c => serializeEvent dumps "question_chunk".data (.questionChunk c false)) ++
                [serializeEvent dumps "error".data (.errorMsg msg)])) ++ [doneFrame] := by
          simp [generateStreamStart]
        rw [hshape]
        refine count_getLast_concat _ doneFrame ?_
        intro x hx
        simp only [List.mem_cons, List.mem_append, List.mem_map, List.mem_singleton,
          List.not_mem_nil, or_false] at hx
        rcases hx with rfl | ⟨c, _, rfl⟩ | rfl <;> exact hne _ _
      | none =>
        have hshape : generateStreamStart dumps (.ok sid) chunks none =
            (serializeEvent dumps "session_started".data (.sessionStarted sid) ::
              ((chunks.filter (fun c => c ≠ [])).map
                (fun c => serializeEvent dumps "question_chunk".data (.questionChunk c false)) ++
                [serializeEvent dumps "question_complete".data
                  (.questionComplete sid false
                    (jsTrim (chunks.filter (fun c => c ≠ [])).flatten))])) ++ [doneFrame] := by
          simp [generateStreamStart]
        rw [hshape]
        refine count_getLast_concat _ doneFrame ?_
        intro x hx
        simp only [List.mem_cons, List.mem_append, List.mem_map, List.mem_singleton,
          List.not_mem_nil, or_false] at hx
        rcases hx with rfl | ⟨c, _, rfl⟩ | rfl <;> exact hne _ _
  · cases lookup with
    | notFound =>
      exact count_getLast_concat
        [serializeEvent dumps "error".data (.errorMsg "Session not found".data)]
        doneFrame (by intro x hx; simp at hx; subst hx; exact hne _ _)
    | dbError =>
      exact count_getLast_concat
        [serializeEvent dumps "error".data (.errorMsg "Database error occurred".data)]
        doneFrame (by intro x hx; simp at hx; subst hx; exact hne _ _)
    | found =>
      cases chunkEnd2 with
      | some msg =>
        have hshape : generateStreamRespond dumps .found sessionId chunks2 (some msg) =
            (chunks2.map
                (fun c => serializeEvent dumps "question_chunk".data (.questionChunk c false)) ++
              [serializeEvent dumps "error".data (.errorMsg msg)]) ++ [doneFrame] := by
          simp [generateStreamRespond]
        rw [hshape]
        refine count_getLast_concat _ doneFrame ?_
        intro x hx
        simp only [List.mem_cons, List.mem_append, List.mem_map, List.mem_singleton,
          List.not_mem_nil, or_false] at hx
        rcases hx with ⟨c, _, rfl⟩ | rfl <;> exact hne _ _
      | none =>
        have hshape : generateStreamRespond dumps .found sessionId chunks2 none =
            (chunks2.map
                (fun c => serializeEvent dumps "question_chunk".data (.questionChunk c false)) ++
              [serializeEvent dumps "question_complete".data
                (.questionComplete sessionId false (jsTrim chunks2.flatten))]) ++ [doneFrame] := by
          simp [generateStreamRespond]
        rw [hshape]
        refine count_getLast_concat _ doneFrame ?_
        intro x hx
        simp only [List.mem_cons, List.mem_append, List.mem_map, List.mem_singleton,
          List.not_mem_nil, or_false] at hx
        rcases hx with ⟨c, _, rfl⟩ | rfl <;> exact hne _ _

/-- A `json.dumps` stub emitting the empty object for every payload. -/
def dumpsW : Str → SsePayload → Str := fun _ _ => ['\x7b', '\x7d']

/-- C1 witness: a concrete run of each generator — a successful start
with two fragments, and a respond turn whose generator raises. -/
theorem c1_terminator_exactly_once_and_last_witness :
    (∀ t d, ∃ r, dumpsW t d = '\x7b' :: r) ∧
    (((generateStreamStart dumpsW (.ok "s1".data) ["He".data, "llo".data] none).count
          doneFrame = 1 ∧
        (generateStreamStart dumpsW (.ok "s1".data) ["He".data, "llo".data] none).getLast? =
          some doneFrame) ∧
      ((generateStreamRespond dumpsW .found "s1".data ["Hi".data]
            (some "LLM failure".data)).count doneFrame = 1 ∧
        (generateStreamRespond dumpsW .found "s1".data ["Hi".data]
            (some "LLM failure".data)).getLast? = some doneFrame)) :=
  ⟨fun _ _ => ⟨['\x7d'], rfl⟩,
    c1_terminator_exactly_once_and_last dumpsW (fun _ _ => ⟨['\x7d'], rfl⟩)
      (.ok "s1".data) ["He".data, "llo".data] none .found "s1".data ["Hi".data]
      (some "LLM failure".data)⟩
/-- The playback invariant: the revealed text never outruns the cursor,
and the cursor never outruns the source text. -/
def pbInv (s : PlaybackState) : Prop :=
  s.displayed.length ≤ s.charIndex ∧ s.charIndex ≤ s.contentRef.length

/-- Every transition of `StreamingMessage` preserves the playback invariant. -/
theorem pbInv_step (s : PlaybackState) (a : PbAction) (h : pbInv s) :
    pbInv (pbStep s a) := by
  obtain ⟨h1, h2⟩ := h
  cases a with
  | update c streaming =>
    simp only [pbStep, applyContentUpdate]
    cases streaming with
    | true =>
      by_cases hlt : c.length < s.charIndex
      · simp [hlt, pbInv]
      · simp only [hlt, if_false, if_true]
        exact ⟨h1, le_of_not_lt hlt⟩
    | false => simp [pbInv]
  | tick =>
    by_cases hstr : s.isStreaming = true
    · simp only [pbStep, hstr, if_true, tickStep]
      by_cases hge : s.charIndex ≥ s.contentRef.length
      · simp only [hge, if_true]
        exact ⟨h1, h2⟩
      · simp only [hge, if_false]
        refine ⟨?_, ?_⟩
        · simp only [List.length_take]
          exact min_le_left _ _
        · exact Nat.succ_le_of_lt (lt_of_not_ge hge)
    · simp only [pbStep, hstr, if_false]
      exact ⟨h1, h2⟩

/-- The invariant holds along every run. -/
theorem pbInv_foldl (acts : List PbAction) (s : PlaybackState) (h : pbInv s) :
    pbInv (acts.foldl pbStep s) := by
  induction acts generalizing s with
  | nil => exact h
  | cons a acts ih => exact ih _ (pbInv_step s a h)

/-- C8: at every reachable state of the `StreamingMessage` playback — in
particular after every tick — the number of revealed characters is at
most the length of the current source text, the reveal cursor included;
and every content update (including replacement by a strictly shorter
text, which resets the cursor to 0) leaves the cursor at most the new
text's length before the next tick. -/
theorem c8_reveal_never_exceeds_source (c0 : Str) (s0 : Bool) (acts : List PbAction) :
    ((pbRun c0 s0 acts).charIndex ≤ (pbRun c0 s0 acts).contentRef.length ∧
      (pbRun c0 s0 acts).displayed.length ≤ (pbRun c0 s0 acts).contentRef.length) ∧
    (∀ (st : PlaybackState) (c : Str) (b : Bool),
      (applyContentUpdate c b st).charIndex ≤ c.length ∧
      (applyContentUpdate c b st).contentRef = c) := by
  constructor
  · have hbase : pbInv ⟨c0, 0, [], s0⟩ := ⟨Nat.le_refl 0, Nat.zero_le _⟩
    have hinit : pbInv (pbInit c0 s0) := pbInv_step ⟨c0, 0, [], s0⟩ (.update c0 s0) hbase
    have hrun := pbInv_foldl acts (pbInit c0 s0) hinit
    exact ⟨hrun.2, le_trans hrun.1 hrun.2⟩
  · intro st c b
    cases b with
    | true =>
      by_cases hlt : c.length < st.charIndex
      · simp [applyContentUpdate, hlt]
      · simp [applyContentUpdate, hlt, le_of_not_lt hlt]
    | false => simp [applyContentUpdate]
/-- C7: whenever the streaming attempt of an active turn errors (an
`onError` callback or a throw out of the setup), the controller stops the
streaming playback (`isStreaming = false`), discards the partially
revealed text (`streamingMessage = ""`), and issues the synchronous
equivalent request exactly once with the same trimmed answer; when that
synchronous request also fails, its message is surfaced as the final
error message with no further retry, and when it succeeds, no error is
surfaced. -/
theorem c7_fallback_exactly_once (scenario : StreamScenario)
    (syncResult : Except Str InterviewResponseM) (answerRaw : Str)
    (st : PageState) (sid : Str) (cp : InterviewPromptM)
    (h1 : st.sessionId = some sid) (h2 : st.currentPrompt = some cp)
    (h3 : jsTrim answerRaw ≠ []) (h4 : scenario.isError = true) :
    (consoleSubmit scenario syncResult answerRaw st).1.isStreaming = false ∧
    (consoleSubmit scenario syncResult answerRaw st).1.streamingMessage = [] ∧
    (consoleSubmit scenario syncResult answerRaw st).2.2 = [jsTrim answerRaw] ∧
    (∀ m, syncResult = .error m →
      (consoleSubmit scenario syncResult answerRaw st).2.1.errorMessage = some m) ∧
    (∀ resp, syncResult = .ok resp →
      (consoleSubmit scenario syncResult answerRaw st).2.1.errorMessage = none) := by
  cases scenario with
  | success chunks resp => simp [StreamScenario.isError] at h4
  | streamFail chunks emsg =>
    cases syncResult with
    | ok resp =>
      refine ⟨?_, ?_, ?_, ?_, ?_⟩ <;>
        simp only [consoleSubmit, h1, h2, h3, handleAnswerSubmit, turnEntries] <;>
        by_cases hcompl : resp.completed <;>
        cases hp : resp.prompt <;>
        simp [consoleSubmit, h1, h2, h3, handleAnswerSubmit, turnEntries, hcompl, hp]
    | error m =>
      refine ⟨?_, ?_, ?_, ?_, ?_⟩ <;>
        simp [consoleSubmit, h1, h2, h3, handleAnswerSubmit]
  | setupThrow emsg =>
    cases syncResult with
    | ok resp =>
      refine ⟨?_, ?_, ?_, ?_, ?_⟩ <;>
        simp only [consoleSubmit, h1, h2, h3, handleAnswerSubmit, turnEntries] <;>
        by_cases hcompl : resp.completed <;>
        cases hp : resp.prompt <;>
        simp [consoleSubmit, h1, h2, h3, handleAnswerSubmit, turnEntries, hcompl, hp]
    | error m =>
      refine ⟨?_, ?_, ?_, ?_, ?_⟩ <;>
        simp [consoleSubmit, h1, h2, h3, handleAnswerSubmit]
/-- C7 witness: an active turn whose stream fails after one chunk and
whose synchronous fallback also fails. -/
theorem c7_fallback_exactly_once_witness :
    ((⟨some "s1".data, some ⟨"q1".data, "Tell me".data, "intro".data, "main".data⟩,
        [], none, false, none⟩ : PageState).sessionId = some "s1".data ∧
      (⟨some "s1".data, some ⟨"q1".data, "Tell me".data, "intro".data, "main".data⟩,
        [], none, false, none⟩ : PageState).currentPrompt =
        some ⟨"q1".data, "Tell me".data, "intro".data, "main".data⟩ ∧
      jsTrim " my answer ".data ≠ [] ∧
      (StreamScenario.streamFail ["He".data] "stream died".data).isError = true) ∧
    ((consoleSubmit (.streamFail ["He".data] "stream died".data)
          (.error "sync failed".data) " my answer ".data
          ⟨some "s1".data, some ⟨"q1".data, "Tell me".data, "intro".data, "main".data⟩,
            [], none, false, none⟩).1.isStreaming = false ∧
      (consoleSubmit (.streamFail ["He".data] "stream died".data)
          (.error "sync failed".data) " my answer ".data
          ⟨some "s1".data, some ⟨"q1".data, "Tell me".data, "intro".data, "main".data⟩,
            [], none, false, none⟩).1.streamingMessage = [] ∧
      (consoleSubmit (.streamFail ["He".data] "stream died".data)
          (.error "sync failed".data) " my answer ".data
          ⟨some "s1".data, some ⟨"q1".data, "Tell me".data, "intro".data, "main".data⟩,
            [], none, false, none⟩).2.2 = [jsTrim " my answer ".data] ∧
      (∀ m, (Except.error "sync failed".data : Except Str InterviewResponseM) = .error m →
        (consoleSubmit (.streamFail ["He".data] "stream died".data)
            (.error "sync failed".data) " my answer ".data
            ⟨some "s1".data, some ⟨"q1".data, "Tell me".data, "intro".data, "main".data⟩,
              [], none, false, none⟩).2.1.errorMessage = some m) ∧
      (∀ resp, (Except.error "sync failed".data : Except Str InterviewResponseM) = .ok resp →
        (consoleSubmit (.streamFail ["He".data] "stream died".data)
            (.error "sync failed".data) " my answer ".data
            ⟨some "s1".data, some ⟨"q1".data, "Tell me".data, "intro".data, "main".data⟩,
              [], none, false, none⟩).2.1.errorMessage = none)) :=
  ⟨⟨rfl, rfl, by decide, rfl⟩,
    c7_fallback_exactly_once (.streamFail ["He".data] "stream died".data)
      (.error "sync failed".data) " my answer ".data
      ⟨some "s1".data, some ⟨"q1".data, "Tell me".data, "intro".data, "main".data⟩,
        [], none, false, none⟩
      "s1".data ⟨"q1".data, "Tell me".data, "intro".data, "main".data⟩
      rfl rfl (by decide) rfl⟩
